import Mathlib

/-!
Verification of the `objpool` object pool (src/lib.rs).

The pool's mutable core is `Items { available: Vec<T>, count: usize, max: Option<usize> }`
protected by a mutex. We embed the lock-serialized state as `Items`, the checkout
algorithm `Pool::get_internal` as a pure function over that state plus a finite
trace of wake events (each wake event records what the environment — the clock and
the other threads — did during one iteration of the condvar wait loop), and the
return path `Pool::put` and the RAII handle `Item` directly.

Durations are nanosecond counts modelled as `Nat`; `usize` values are `Nat`
with the sentinel `usize::MAX = 2^64 - 1` made explicit where the source uses it.
-/

namespace Objpool

/-- The value of `std::usize::MAX` on a 64-bit target, used by `get_internal` as
the sentinel for an unset capacity (`items.max.unwrap_or(std::usize::MAX)`). -/
def USIZE_MAX : Nat := 2 ^ 64 - 1

/-- The lock-protected slot store, `struct Items<T>` in src/lib.rs:
`available: Vec<T>` (free items), `count: usize` (items ever constructed),
`max: Option<usize>` (optional capacity ceiling). -/
structure Items (T : Type) where
  available : List T
  count : Nat
  max : Option Nat
deriving DecidableEq, Repr

/-- The return path `Pool::put`: push the item onto `available`
(`Vec::push` appends at the end). The `notify_one` call is part of the wait
coordinator, not of the store state, and is modelled by the wake events. -/
def Items.put {T : Type} (s : Items T) (x : T) : Items T :=
  { s with available := s.available ++ [x] }

/-- One iteration of the condvar wait loop, as seen by the waiting thread:
`elapsed` is what `start.elapsed()` returned at the top of the iteration
(`none` models `Err(_)`, a clock read failure); `timedOut` is what
`wait_result.timed_out()` reported after `wait_timeout`; `items` is the slot
store the thread observes on reacquiring the lock after the wait (it reflects
whatever the other threads did meanwhile). -/
structure WakeEvent (T : Type) where
  elapsed : Option Nat
  timedOut : Bool
  items : Items T
deriving DecidableEq, Repr

/-- Outcome of a checkout call: `ok item` (a `Handle` was produced), `timeout`
(`Err(TimeoutError)`), or `blocked` (the wake-event trace ran out while the
thread was still waiting — the call has neither returned nor failed). -/
inductive GetResult (T : Type) where
  | ok (item : T)
  | timeout
  | blocked
deriving DecidableEq, Repr

/-- The pop after the wait loop: `items.available.pop().unwrap()`.
`Vec::pop` removes and returns the last element. The `none` branch is the
`unwrap` panic and is unreachable because the loop only exits on a non-empty
`available`. -/
def popLast {T : Type} (s : Items T) : GetResult T × Items T :=
  match s.available.getLast? with
  | some x => (.ok x, { s with available := s.available.dropLast })
  | none => (.blocked, s)

/-- The `while items.available.is_empty()` wait loop of `Pool::get_internal`,
driven by the wake-event trace. Each iteration with a bounded `duration`:
read the clock (a failed read counts as elapsed 0), return `TimeoutError` if
`elapsed > duration`, otherwise `wait_timeout` (the store becomes `e.items`),
return `TimeoutError` if the wait reported a timeout, else loop. With no
duration, `wait` ignores the clock and the timeout flag. -/
def waitLoop {T : Type} (duration : Option Nat) :
    Items T → List (WakeEvent T) → GetResult T × Items T
  | s, [] => if s.available.isEmpty then (.blocked, s) else popLast s
  | s, e :: rest =>
    if s.available.isEmpty then
      match duration with
      | some d =>
        if e.elapsed.getD 0 > d then (.timeout, s)
        else if e.timedOut then (.timeout, e.items)
        else waitLoop duration e.items rest
      | none => waitLoop duration e.items rest
    else popLast s

/-- The checkout algorithm `Pool::get_internal`: pop a free item if one is
available; otherwise, if `count < max.unwrap_or(usize::MAX)`, increment `count`,
release the lock and invoke the factory; otherwise enter the wait loop. -/
def get_internal {T : Type} (duration : Option Nat) (s : Items T)
    (create : Unit → T) (evs : List (WakeEvent T)) : GetResult T × Items T :=
  match s.available.getLast? with
  | some item => (.ok item, { s with available := s.available.dropLast })
  | none =>
    if s.count < s.max.getD USIZE_MAX then
      (.ok (create ()), { s with count := s.count + 1 })
    else
      waitLoop duration s evs

/-- Checkout without a timeout, `Pool::get`: `get_internal(None).unwrap()`. -/
def Pool.get {T : Type} (s : Items T) (create : Unit → T)
    (evs : List (WakeEvent T)) : GetResult T × Items T :=
  get_internal none s create evs

/-- Checkout with a timeout, `Pool::get_timeout`: `get_internal(Some(duration))`. -/
def Pool.get_timeout {T : Type} (d : Nat) (s : Items T) (create : Unit → T)
    (evs : List (WakeEvent T)) : GetResult T × Items T :=
  get_internal (some d) s create evs

/-- The checked-out handle `Item<T, F>`: `item: Option<T>` is present while the
handle is live and taken exactly once at destruction. The `pool` back-reference
is the ambient store the drop acts on. -/
structure Item (T : Type) where
  item : Option T
deriving DecidableEq, Repr

/-- The destructor `impl Drop for Item`: `self.pool.put(self.item.take().unwrap())`.
It takes the contained item (leaving `None` behind) and pushes it back with
`put`. The result is the dead handle together with the updated store; `none`
models the `unwrap` panic on an already-taken handle. -/
def Item.drop {T : Type} (h : Item T) (s : Items T) : Option (Item T × Items T) :=
  h.item.map (fun x => (⟨none⟩, s.put x))

/-- The builder `PoolBuilder<T, F>`; the factory is carried opaquely. -/
structure PoolBuilder (T : Type) where
  create : Unit → T
  maxItems : Option Nat

/-- Constructor `PoolBuilder::new`: no capacity ceiling. -/
def PoolBuilder.new {T : Type} (create : Unit → T) : PoolBuilder T :=
  ⟨create, none⟩

/-- Setter `PoolBuilder::max_items`: records `Some(max_items)`; any `usize`,
including zero, is accepted. -/
def PoolBuilder.max_items {T : Type} (b : PoolBuilder T) (m : Nat) : PoolBuilder T :=
  { b with maxItems := some m }

/-- The initial slot store built by `Pool::new_internal`:
`available = vec![]`, `count = 0`, `max = max_items`. -/
def new_internal {T : Type} (max_items : Option Nat) : Items T :=
  ⟨[], 0, max_items⟩

/-- Terminal builder step `PoolBuilder::finalize`, returning the fresh store. -/
def PoolBuilder.finalize {T : Type} (b : PoolBuilder T) : Items T :=
  new_internal b.maxItems

/-- A pool-wide configuration: the slot store together with the multiset of
items currently held by live handles. Checked-out items live in `handles`,
free ones in `items.available`. -/
structure PoolState (T : Type) where
  items : Items T
  handles : List T
deriving DecidableEq, Repr

/-- The serialized mutations of the slot store, one constructor per mutation
site in src/lib.rs. The mutex serializes them, so a pool history is a sequence
of these atomic steps: `checkoutFree` is the `available.pop()` that succeeds
(fast path, and the pop after the wait loop); `checkoutNew` is the
`count += 1` branch followed by `create()` outside the lock; `putBack` is
`Pool::put` fired by a handle's drop. -/
inductive Step {T : Type} (create : Unit → T) : PoolState T → PoolState T → Prop
  | checkoutFree (p : PoolState T) (l : List T) (x : T)
      (hpop : p.items.available = l ++ [x]) :
      Step create p ⟨{ p.items with available := l }, x :: p.handles⟩
  | checkoutNew (p : PoolState T)
      (hempty : p.items.available = [])
      (hroom : p.items.count < p.items.max.getD USIZE_MAX) :
      Step create p ⟨{ p.items with count := p.items.count + 1 },
        create () :: p.handles⟩
  | putBack (p : PoolState T) (x : T) (h₁ h₂ : List T)
      (hheld : p.handles = h₁ ++ x :: h₂) :
      Step create p ⟨p.items.put x, h₁ ++ h₂⟩

/-- Reflexive-transitive closure of `Step`: the pool states reachable from a
given state through any sequence of serialized operations. -/
inductive Reachable {T : Type} (create : Unit → T) : PoolState T → PoolState T → Prop
  | refl (p : PoolState T) : Reachable create p p
  | tail {p q r : PoolState T} : Reachable create p q → Step create q r →
      Reachable create p r

/-- A fresh pool configuration: the store from `Pool::new_internal` and no
live handles. -/
def initState {T : Type} (max_items : Option Nat) : PoolState T :=
  ⟨new_internal max_items, []⟩

/-- Invariant I1 of the spec, on a slot store alone:
`0 ≤ free.length ≤ constructed`, and `constructed ≤ capacity` when set. -/
def I1 {T : Type} (s : Items T) : Prop :=
  s.available.length ≤ s.count ∧
    match s.max with
    | some m => s.count ≤ m
    | none => True

/-- The inductive strengthening of I1: free items plus checked-out items
account exactly for every constructed item, and `count` respects the ceiling. -/
def Inv {T : Type} (p : PoolState T) : Prop :=
  p.items.available.length + p.handles.length = p.items.count ∧
    match p.items.max with
    | some m => p.items.count ≤ m
    | none => True

/-! Helper lemmas about the wait loop. -/

theorem popLast_fst_ne_timeout {T : Type} (s : Items T) :
    (popLast s).1 ≠ .timeout := by
  unfold popLast
  split <;> simp

theorem waitLoop_none_ne_timeout {T : Type} (s : Items T)
    (evs : List (WakeEvent T)) : (waitLoop none s evs).1 ≠ .timeout := by
  induction evs generalizing s with
  | nil =>
    simp only [waitLoop]
    split
    · simp
    · exact popLast_fst_ne_timeout s
  | cons e rest ih =>
    simp only [waitLoop]
    split
    · exact ih e.items
    · exact popLast_fst_ne_timeout s

theorem waitLoop_allEmpty_ne_ok {T : Type} (d : Option Nat) (s : Items T)
    (evs : List (WakeEvent T)) (hs : s.available = [])
    (hevs : ∀ e ∈ evs, e.items.available = []) (x : T) :
    (waitLoop d s evs).1 ≠ .ok x := by
  induction evs generalizing s with
  | nil => simp [waitLoop, hs]
  | cons e rest ih =>
    have hrest : ∀ e' ∈ rest, e'.items.available = [] :=
      fun e' h' => hevs e' (by simp [h'])
    have hhead : e.items.available = [] := hevs e (by simp)
    simp only [waitLoop, hs, List.isEmpty_nil, if_true]
    split
    · split
      · simp
      · split
        · simp
        · exact ih e.items hhead hrest
    · exact ih e.items hhead hrest

theorem waitLoop_timeout_state {T : Type} (d : Option Nat) (s s' : Items T)
    (evs : List (WakeEvent T)) (h : waitLoop d s evs = (.timeout, s')) :
    s' = s ∨ s' ∈ evs.map (·.items) := by
  induction evs generalizing s with
  | nil =>
    simp only [waitLoop] at h
    split at h
    · simp at h
    · exact absurd (congrArg Prod.fst h) (popLast_fst_ne_timeout s)
  | cons e rest ih =>
    simp only [waitLoop] at h
    split at h
    · split at h
      · split at h
        · left; exact (Prod.ext_iff.mp h).2.symm
        · split at h
          · right; simp only [List.map_cons, List.mem_cons]
            left; exact (Prod.ext_iff.mp h).2.symm
          · rcases ih e.items h with h' | h'
            · right; simp [h']
            · right; simp only [List.map_cons, List.mem_cons]; right; exact h'
      · rcases ih e.items h with h' | h'
        · right; simp [h']
        · right; simp only [List.map_cons, List.mem_cons]; right; exact h'
    · exact absurd (congrArg Prod.fst h) (popLast_fst_ne_timeout s)

/-- C1: checkout without a timeout never fails. `Pool::get` calls
`get_internal(None)`, whose `None` wait branch never produces a
`TimeoutError`, so the `unwrap` inside `get` never hits the error case;
every terminating outcome is a Handle (the only alternative is to remain
blocked in the wait loop). -/
theorem get_never_timeout {T : Type} (s : Items T) (create : Unit → T)
    (evs : List (WakeEvent T)) : (Pool.get s create evs).1 ≠ .timeout := by
  unfold Pool.get get_internal
  split
  · simp
  · split
    · simp
    · exact waitLoop_none_ne_timeout s evs

/-- C5: exactly-once return. Dropping a live handle takes the contained item
(the handle is left holding `None`) and pushes exactly one copy of it onto the
free collection via `put`; the resulting dead handle can never push again
(its `drop` has no item to take, so no second return can occur). -/
theorem handle_drop_returns_once {T : Type} [DecidableEq T] (x : T)
    (s s' : Items T) :
    Item.drop ⟨some x⟩ s =
      some (⟨none⟩, { s with available := s.available ++ [x] }) ∧
    (s.put x).available.count x = s.available.count x + 1 ∧
    Item.drop (⟨none⟩ : Item T) s' = none := by
  refine ⟨rfl, ?_, rfl⟩
  simp [Items.put]

/-- C6: LIFO reuse. `put` pushes onto the end of the free vector and checkout
pops from the end, so a return immediately followed by a checkout (with any
duration and any wake-event trace) yields the just-returned item and restores
the store exactly to its prior state. -/
theorem checkout_after_put {T : Type} (d : Option Nat) (s : Items T) (x : T)
    (create : Unit → T) (evs : List (WakeEvent T)) :
    get_internal d (s.put x) create evs = (.ok x, s) := by
  cases s with
  | mk available count max =>
    simp [get_internal, Items.put, List.getLast?_concat, List.dropLast_concat]

/-- C8: clock failures read as zero elapsed time. A wait-loop iteration whose
clock read failed (`elapsed = none`, the `Err(_)` arm) behaves exactly as one
that read an elapsed time of zero, and an elapsed time of zero can never
exceed the duration, so a clock failure never triggers the deadline check. -/
theorem clock_failure_reads_zero {T : Type} (d : Nat) (s : Items T)
    (create : Unit → T) (t : Bool) (its : Items T) (rest : List (WakeEvent T)) :
    get_internal (some d) s create (⟨none, t, its⟩ :: rest) =
      get_internal (some d) s create (⟨some 0, t, its⟩ :: rest) ∧
    ¬ (Option.getD (none : Option Nat) 0 > d) := by
  constructor
  · unfold get_internal
    split
    · rfl
    · split
      · rfl
      · simp only [waitLoop, Option.getD_none, Option.getD_some]
  · simp

/-- C9: a timed-out checkout performs no mutation. Whenever
`get_timeout` returns `TimeoutError`, the store it leaves behind is an
ambient state — either the state the call started from or one produced
entirely by other threads during a wait — never one the call itself pushed
to, popped from, or whose count it changed; in particular, with no concurrent
activity the store is exactly the state the call started from. -/
theorem timeout_leaves_state_unchanged {T : Type} (d : Nat) (s s' : Items T)
    (create : Unit → T) (evs : List (WakeEvent T))
    (h : Pool.get_timeout d s create evs = (.timeout, s')) :
    (s' = s ∨ s' ∈ evs.map (·.items)) ∧
    ((∀ e ∈ evs, e.items = s) → s' = s) := by
  have hmain : s' = s ∨ s' ∈ evs.map (·.items) := by
    unfold Pool.get_timeout get_internal at h
    split at h
    · simp at h
    · split at h
      · simp at h
      · exact waitLoop_timeout_state (some d) s s' evs h
  refine ⟨hmain, fun hall => ?_⟩
  rcases hmain with h' | h'
  · exact h'
  · obtain ⟨e, he, rfl⟩ := List.mem_map.mp h'
    exact hall e he

/-- Witness for C9: a concrete timed-out call — capacity-1 pool with its item
checked out, zero timeout, one expiring wake event — leaves the store exactly
as it was. -/
theorem timeout_leaves_state_unchanged_witness :
    Pool.get_timeout 0 (⟨[], 1, some 1⟩ : Items Nat) (fun _ => 0)
        [⟨some 1, true, ⟨[], 1, some 1⟩⟩] = (.timeout, ⟨[], 1, some 1⟩) ∧
    ((⟨[], 1, some 1⟩ : Items Nat) = ⟨[], 1, some 1⟩ ∨
        (⟨[], 1, some 1⟩ : Items Nat) ∈
          [(⟨some 1, true, ⟨[], 1, some 1⟩⟩ : WakeEvent Nat)].map (·.items)) :=
  ⟨by decide,
    (timeout_leaves_state_unchanged 0 ⟨[], 1, some 1⟩ ⟨[], 1, some 1⟩
      (fun _ => 0) [⟨some 1, true, ⟨[], 1, some 1⟩⟩] (by decide)).1⟩

/-- C2, counterexample to the claim as stated: on a saturated capacity-1 pool
with deadline 5, a wake event in which an item (42) was made available before
the deadline (elapsed 3 ≤ 5) but whose `wait_timeout` reported expiry makes
`get_timeout` return `TimeoutError` — the code checks `wait_result.timed_out()`
before re-checking `available`, so it reports a timeout while an item is
already free. -/
theorem get_timeout_missed_return_counterexample :
    (WakeEvent.elapsed ⟨some 3, true, ⟨[42], 1, some 1⟩⟩).getD 0 ≤ 5 ∧
    (WakeEvent.items (⟨some 3, true, ⟨[42], 1, some 1⟩⟩ : WakeEvent Nat)).available ≠ [] ∧
    (Pool.get_timeout 5 (⟨[], 1, some 1⟩ : Items Nat) (fun _ => 0)
        [⟨some 3, true, ⟨[42], 1, some 1⟩⟩]).1 = .timeout := by
  refine ⟨by decide, by decide, by decide⟩

/-- C2 amended: on a saturated pool (no free item, capacity reached),
(a) if no return ever occurs (every wake event shows an empty free list) the
call never succeeds, (b) a wake event that reports expiry — by the deadline
check or by `wait_timeout` — yields `TimeoutError`, and (c) if the first wake
event occurs before the deadline, does not report expiry, and carries a
returned item, the call succeeds with that item. The original claim's
stronger promise — success whenever a return happens before the deadline —
fails when the wait itself reports expiry (see the counterexample). -/
theorem get_timeout_saturated {T : Type} (d : Nat) (s : Items T)
    (create : Unit → T) (hempty : s.available = [])
    (hfull : ¬ s.count < s.max.getD USIZE_MAX) :
    (∀ evs, (∀ e ∈ evs, e.items.available = []) →
        ∀ x, (Pool.get_timeout d s create evs).1 ≠ .ok x) ∧
    (∀ (e : WakeEvent T) rest, e.elapsed.getD 0 > d ∨ e.timedOut = true →
        (Pool.get_timeout d s create (e :: rest)).1 = .timeout) ∧
    (∀ (e : WakeEvent T) rest l x, e.elapsed.getD 0 ≤ d → e.timedOut = false →
        e.items.available = l ++ [x] →
        Pool.get_timeout d s create (e :: rest) =
          (.ok x, { e.items with available := l })) := by
  refine ⟨?_, ?_, ?_⟩
  · intro evs hevs x
    unfold Pool.get_timeout get_internal
    simp only [hempty, List.getLast?_nil, hfull, if_false]
    exact waitLoop_allEmpty_ne_ok (some d) s evs hempty hevs x
  · intro e rest hexp
    unfold Pool.get_timeout get_internal
    simp only [hempty, List.getLast?_nil, hfull, if_false]
    simp only [waitLoop, hempty, List.isEmpty_nil, if_true]
    rcases hexp with hexp | hexp
    · simp [hexp]
    · split
      · rfl
      · simp [hexp]
  · intro e rest l x hel ht harr
    unfold Pool.get_timeout get_internal
    simp only [hempty, List.getLast?_nil, hfull, if_false]
    simp only [waitLoop, hempty, List.isEmpty_nil, if_true,
      Nat.not_lt.mpr hel, gt_iff_lt, if_false, ht]
    cases rest with
    | nil =>
      simp [waitLoop, harr, popLast, List.getLast?_concat,
        List.dropLast_concat]
    | cons e' rest' =>
      simp [waitLoop, harr, popLast, List.getLast?_concat,
        List.dropLast_concat]

/-- Witness for C2: on the saturated capacity-1 pool, (a) a trace with no
returns never yields an item, (b) an expiring wake yields `TimeoutError`, and
(c) a pre-deadline wake carrying returned item 9 yields item 9. -/
theorem get_timeout_saturated_witness :
    (∀ x, (Pool.get_timeout 5 (⟨[], 1, some 1⟩ : Items Nat) (fun _ => 0)
        [⟨some 1, false, ⟨[], 1, some 1⟩⟩]).1 ≠ .ok x) ∧
    (Pool.get_timeout 5 (⟨[], 1, some 1⟩ : Items Nat) (fun _ => 0)
        [⟨some 9, false, ⟨[], 1, some 1⟩⟩]).1 = .timeout ∧
    Pool.get_timeout 5 (⟨[], 1, some 1⟩ : Items Nat) (fun _ => 0)
        [⟨some 3, false, ⟨[9], 1, some 1⟩⟩] = (.ok 9, ⟨[], 1, some 1⟩) :=
  ⟨fun x => (get_timeout_saturated 5 ⟨[], 1, some 1⟩ (fun _ => 0) rfl
      (by decide)).1 [⟨some 1, false, ⟨[], 1, some 1⟩⟩] (by decide) x,
    (get_timeout_saturated 5 ⟨[], 1, some 1⟩ (fun _ => 0) rfl (by decide)).2.1
      ⟨some 9, false, ⟨[], 1, some 1⟩⟩ [] (Or.inl (by decide)),
    (get_timeout_saturated 5 ⟨[], 1, some 1⟩ (fun _ => 0) rfl (by decide)).2.2
      ⟨some 3, false, ⟨[9], 1, some 1⟩⟩ [] [] 9 (by decide) rfl rfl⟩

/-- C3, counterexample to the claim as stated: with capacity unset and
`count = usize::MAX`, the construction guard `count < max.unwrap_or(usize::MAX)`
is false, so a zero-duration checkout on an empty free list reaches the wait
loop and times out even though the claim promises a Handle whenever capacity
is unset. -/
theorem zero_timeout_unbounded_counterexample :
    (Items.max (⟨[], USIZE_MAX, none⟩ : Items Nat)) = none ∧
    (Pool.get_timeout 0 (⟨[], USIZE_MAX, none⟩ : Items Nat) (fun _ => 7)
        [⟨some 1, true, ⟨[], USIZE_MAX, none⟩⟩]).1 = .timeout := by
  refine ⟨rfl, by decide⟩

/-- C3 amended: a zero-duration checkout performs the fast-path checks before
ever consulting the deadline — if a free item is available it is returned, and
if the free list is empty but `count < max.unwrap_or(usize::MAX)` (constructed
below the ceiling; with capacity unset, below `usize::MAX`) a new item is
constructed and returned. The original claim's unqualified "capacity unset"
case fails only at `count = usize::MAX` (see the counterexample). -/
theorem zero_timeout_fast_paths {T : Type} (s : Items T) (create : Unit → T)
    (evs : List (WakeEvent T)) :
    (∀ l x, s.available = l ++ [x] →
        Pool.get_timeout 0 s create evs = (.ok x, { s with available := l })) ∧
    (s.available = [] → s.count < s.max.getD USIZE_MAX →
        Pool.get_timeout 0 s create evs =
          (.ok (create ()), { s with count := s.count + 1 })) := by
  constructor
  · intro l x harr
    unfold Pool.get_timeout get_internal
    simp [harr, List.getLast?_concat, List.dropLast_concat]
  · intro hempty hroom
    unfold Pool.get_timeout get_internal
    simp [hempty, hroom]

/-- Witness for C3: with a free item (5) a zero timeout returns it; with an
empty free list and room under the ceiling, a zero timeout constructs (9). -/
theorem zero_timeout_fast_paths_witness :
    Pool.get_timeout 0 (⟨[5], 1, some 2⟩ : Items Nat) (fun _ => 9) []
      = (.ok 5, ⟨[], 1, some 2⟩) ∧
    Pool.get_timeout 0 (⟨[], 1, some 2⟩ : Items Nat) (fun _ => 9) []
      = (.ok 9, ⟨[], 2, some 2⟩) :=
  ⟨(zero_timeout_fast_paths ⟨[5], 1, some 2⟩ (fun _ => 9) []).1 [] 5 rfl,
    (zero_timeout_fast_paths ⟨[], 1, some 2⟩ (fun _ => 9) []).2 rfl (by decide)⟩

/-! Invariant preservation over the serialized step relation. -/

theorem step_preserves_Inv {T : Type} {create : Unit → T} {p q : PoolState T}
    (h : Step create p q) (hp : Inv p) : Inv q := by
  obtain ⟨hlen, hmax⟩ := hp
  cases h with
  | checkoutFree l x hpop =>
    refine ⟨?_, hmax⟩
    simp only [List.length_cons]
    rw [hpop] at hlen
    simp only [List.length_append, List.length_singleton] at hlen
    omega
  | checkoutNew hempty hroom =>
    constructor
    · simp only [List.length_cons]
      omega
    · revert hmax hroom
      cases hm : p.items.max with
      | none => simp
      | some m => simp only [Option.getD_some]; omega
  | putBack x h₁ h₂ hheld =>
    refine ⟨?_, hmax⟩
    simp only [Items.put, List.length_append, List.length_singleton]
    rw [hheld] at hlen
    simp only [List.length_append, List.length_cons] at hlen
    omega

theorem reachable_preserves_Inv {T : Type} {create : Unit → T}
    {p q : PoolState T} (h : Reachable create p q) (hp : Inv p) : Inv q := by
  induction h with
  | refl => exact hp
  | tail hreach hstep ih => exact step_preserves_Inv hstep ih

theorem Inv_initState {T : Type} (m : Option Nat) :
    Inv (initState (T := T) m) := by
  constructor
  · rfl
  · cases m <;> simp [initState, new_internal]

/-- C4: invariant I1 holds in every pool state reachable from a fresh pool
through any sequence of serialized slot-store operations (checkout by pop,
checkout by construction, return by `put`): the free list is never longer
than the constructed count, and the constructed count never exceeds the
capacity when one is set. -/
theorem reachable_satisfies_I1 {T : Type} (create : Unit → T)
    (m : Option Nat) (p : PoolState T)
    (h : Reachable create (initState m) p) : I1 p.items := by
  obtain ⟨hlen, hmax⟩ := reachable_preserves_Inv h (Inv_initState m)
  exact ⟨by omega, hmax⟩

/-- Witness for C4: a capacity-2 pool after construct, construct, return —
a concrete three-step reachable state — satisfies I1. -/
theorem reachable_satisfies_I1_witness :
    I1 (⟨[0], 2, some 2⟩ : Items Nat) :=
  reachable_satisfies_I1 (fun _ => 0) (some 2) ⟨⟨[0], 2, some 2⟩, [0]⟩
    (Reachable.tail
      (Reachable.tail
        (Reachable.tail (Reachable.refl _)
          (Step.checkoutNew (initState (some 2)) rfl (by decide)))
        (Step.checkoutNew ⟨⟨[], 1, some 2⟩, [0]⟩ rfl (by decide)))
      (Step.putBack ⟨⟨[], 2, some 2⟩, [0, 0]⟩ 0 [] [0] rfl))

/-- C7: the construction branch (empty free list, room under the ceiling)
increments the constructed count by exactly one and hands the caller exactly
the factory's product; the slot-store mutation is committed independently of
the factory (reflecting that `create` runs after the lock is released, so it
cannot affect the critical section); and no serialized operation ever
decreases the constructed count. -/
theorem construct_branch_increments_once {T : Type} (d : Option Nat)
    (s : Items T) (c₁ c₂ : Unit → T) (evs₁ evs₂ : List (WakeEvent T))
    (hempty : s.available = []) (hroom : s.count < s.max.getD USIZE_MAX) :
    get_internal d s c₁ evs₁ = (.ok (c₁ ()), { s with count := s.count + 1 }) ∧
    (get_internal d s c₁ evs₁).2 = (get_internal d s c₂ evs₂).2 ∧
    (∀ p q : PoolState T, Step c₁ p q → p.items.count ≤ q.items.count) := by
  have h₁ : get_internal d s c₁ evs₁ =
      (.ok (c₁ ()), { s with count := s.count + 1 }) := by
    unfold get_internal
    simp [hempty, hroom]
  have h₂ : get_internal d s c₂ evs₂ =
      (.ok (c₂ ()), { s with count := s.count + 1 }) := by
    unfold get_internal
    simp [hempty, hroom]
  refine ⟨h₁, by rw [h₁, h₂], ?_⟩
  intro p q hstep
  cases hstep with
  | checkoutFree l x hpop => exact Nat.le_refl _
  | checkoutNew he hr => exact Nat.le_succ _
  | putBack x h₁ h₂ hheld => exact Nat.le_refl _

/-- Witness for C7: on an empty capacity-1 pool, checkout constructs: the
count goes from 0 to 1 and the factory's product (3) is handed out, with the
store mutation identical under a different factory. -/
theorem construct_branch_increments_once_witness :
    get_internal none (⟨[], 0, some 1⟩ : Items Nat) (fun _ => 3) []
      = (.ok 3, ⟨[], 1, some 1⟩) ∧
    (get_internal none (⟨[], 0, some 1⟩ : Items Nat) (fun _ => 3) []).2
      = (get_internal none (⟨[], 0, some 1⟩ : Items Nat) (fun _ => 8) []).2 :=
  ⟨(construct_branch_increments_once none ⟨[], 0, some 1⟩ (fun _ => 3)
      (fun _ => 8) [] [] rfl (by decide)).1,
    (construct_branch_increments_once none ⟨[], 0, some 1⟩ (fun _ => 3)
      (fun _ => 8) [] [] rfl (by decide)).2.1⟩

/-- The step relation never moves a capacity-zero pool: no pop (no free
item), no construction (`0 < 0` fails), no return (no handle exists). -/
theorem capacity_zero_frozen {T : Type} {create : Unit → T} {p : PoolState T}
    (h : Reachable create (initState (some 0)) p) : p = initState (some 0) := by
  induction h with
  | refl => rfl
  | tail hreach hstep ih =>
    subst ih
    cases hstep with
    | checkoutFree l x hpop => exact absurd hpop (by simp [initState, new_internal])
    | checkoutNew hempty hroom =>
      exact absurd hroom (by simp [initState, new_internal])
    | putBack x h₁ h₂ hheld =>
      exact absurd hheld (by simp [initState, new_internal])

/-- C10: the builder accepts `max_items(0)` and produces the store
`{available: [], count: 0, max: Some(0)}`; on such a pool no reachable state
ever constructs an item or holds a free one, and a timed checkout — fed any
wake trace consistent with that (empty free lists) whose wait eventually
reports expiry — returns `TimeoutError` for every duration. -/
theorem max_items_zero_always_times_out {T : Type} (create : Unit → T) :
    ((PoolBuilder.new create).max_items 0).finalize = (⟨[], 0, some 0⟩ : Items T) ∧
    (∀ p : PoolState T, Reachable create (initState (some 0)) p →
        p.items.count = 0 ∧ p.items.available = [] ∧ p.handles = []) ∧
    (∀ (d : Nat) (e : WakeEvent T) (rest : List (WakeEvent T)),
        (∀ ev ∈ e :: rest, ev.items.available = []) → e.timedOut = true →
        (Pool.get_timeout d (((PoolBuilder.new create).max_items 0).finalize)
            create (e :: rest)).1 = .timeout) := by
  refine ⟨rfl, ?_, ?_⟩
  · intro p h
    rw [capacity_zero_frozen h]
    exact ⟨rfl, rfl, rfl⟩
  · intro d e rest hevs ht
    unfold PoolBuilder.finalize PoolBuilder.max_items PoolBuilder.new
      new_internal Pool.get_timeout get_internal
    simp only [List.getLast?_nil]
    rw [if_neg (by simp)]
    simp only [waitLoop, List.isEmpty_nil, if_true]
    split
    · rfl
    · simp [ht]

/-- Witness for C10: the concrete capacity-zero pool with a one-event
expiring trace times out at duration 7, and the initial state is the only
reachable one. -/
theorem max_items_zero_always_times_out_witness :
    (Pool.get_timeout 7
        (((PoolBuilder.new (fun _ => (4 : Nat))).max_items 0).finalize)
        (fun _ => (4 : Nat)) [⟨some 0, true, ⟨[], 0, some 0⟩⟩]).1 = .timeout ∧
    ((initState (some 0) : PoolState Nat).items.count = 0 ∧
      (initState (some 0) : PoolState Nat).items.available = [] ∧
      (initState (some 0) : PoolState Nat).handles = []) :=
  ⟨(max_items_zero_always_times_out (fun _ => (4 : Nat))).2.2 7
      ⟨some 0, true, ⟨[], 0, some 0⟩⟩ [] (by decide) rfl,
    (max_items_zero_always_times_out (fun _ => (4 : Nat))).2.1
      (initState (some 0)) (Reachable.refl _)⟩

end Objpool
